import Mathlib

/-!
Verification of the MathSolver AI calculator client (kevilgs/AI-Calculator).

The JavaScript sources are shallowly embedded as Lean functions:
strings become `String`/`List Char`, JavaScript `null`/`undefined`-able strings
become `Option String` (or `""` where JS truthiness makes them equivalent),
DOM/network effects become explicit records describing the actions taken, and
the regex-based rewriting passes of the text-mode converter become character
list scanners that reproduce the leftmost, non-overlapping global-replace
semantics of the JavaScript regexes (scanning resumes after each match).

Recursive scanners take an explicit fuel argument; each step consumes at least
one input character, so fuel equal to the input length (as supplied by the
wrapper functions) always suffices, and the base case `fuel = 0` is never hit.
-/

namespace MathSolver

/-! ### Character classes used by the text-mode converter regexes -/

/-- Class `[0-9]` of the converter regexes. -/
def isDigitCh (c : Char) : Bool := '0' ≤ c && c ≤ '9'

/-- Class `[a-zA-Z]` of the converter regexes. -/
def isLetterCh (c : Char) : Bool := ('a' ≤ c && c ≤ 'z') || ('A' ≤ c && c ≤ 'Z')

/-- Class `[a-zA-Z0-9]` of the converter regexes. -/
def isAlnumCh (c : Char) : Bool := isDigitCh c || isLetterCh c

/-- Whitespace, for the regex class `\s` (the inputs of interest only use these). -/
def isSpaceCh (c : Char) : Bool := c = ' ' || c = '\t' || c = '\n' || c = '\r'

/-- Left operand class `[0-9a-zA-Z\)}]` of the `*`-removal regex. -/
def starLeft (c : Char) : Bool := isAlnumCh c || c = ')' || c = '\x7d'

/-- Right operand class `[0-9a-zA-Z\({]` of the `*`-removal regex. -/
def starRight (c : Char) : Bool := isAlnumCh c || c = '(' || c = '\x7b'

/-- Class `[a-zA-Z0-9\}]` of the exponent-spacing regex. -/
def termCh (c : Char) : Bool := isAlnumCh c || c = '\x7d'

/-! ### Pass 1: `latex.replace(/([0-9a-zA-Z\)}])(\s*)\*(\s*)([0-9a-zA-Z\({])/g, '$1$2$3$4')` -/

/-- Tries to match `(\s*)\*(\s*)([0-9a-zA-Z\({])` at the head of the list;
on success returns the kept whitespace, the right operand and the remainder. -/
def starTail (cs : List Char) : Option (List Char × Char × List Char) :=
  let ws1 := cs.takeWhile isSpaceCh
  match cs.dropWhile isSpaceCh with
  | '*' :: r2 =>
    let ws2 := r2.takeWhile isSpaceCh
    match r2.dropWhile isSpaceCh with
    | d :: r4 => if starRight d then some (ws1 ++ ws2, d, r4) else none
    | [] => none
  | _ => none

/-- Global replace dropping the `*` of explicit multiplications. -/
def removeStarsGo : Nat → List Char → List Char
  | 0, cs => cs
  | _ + 1, [] => []
  | fuel + 1, c :: rest =>
    if starLeft c then
      match starTail rest with
      | some (ws, d, r4) => c :: (ws ++ d :: removeStarsGo fuel r4)
      | none => c :: removeStarsGo fuel rest
    else c :: removeStarsGo fuel rest

/-- The `*`-removal pass of `TextMode.processInputToLatex`. -/
def removeStars (cs : List Char) : List Char := removeStarsGo cs.length cs

/-! ### Pass 2: `latex.replace(/([0-9])([a-zA-Z])/g, '$1 $2')` -/

/-- Inserts a space between a digit and an immediately following letter. -/
def insertDigitLetterSpace : List Char → List Char
  | [] => []
  | [c] => [c]
  | c :: d :: rest =>
    if isDigitCh c && isLetterCh d then c :: ' ' :: d :: insertDigitLetterSpace rest
    else c :: insertDigitLetterSpace (d :: rest)

/-! ### Pass 3: `latex.replace(/([a-zA-Z0-9\}])([a-zA-Z]+\^)/g, '$1 $2')` -/

/-- Inserts a space between a term character and a following exponentiated run of letters. -/
def insertExpSpaceGo : Nat → List Char → List Char
  | 0, cs => cs
  | _ + 1, [] => []
  | fuel + 1, c :: rest =>
    if termCh c then
      let ls := rest.takeWhile isLetterCh
      if ls.isEmpty then c :: insertExpSpaceGo fuel rest
      else
        match rest.dropWhile isLetterCh with
        | '^' :: r2 => c :: ' ' :: (ls ++ '^' :: insertExpSpaceGo fuel r2)
        | _ => c :: insertExpSpaceGo fuel rest
    else c :: insertExpSpaceGo fuel rest

/-- The exponent-spacing pass of `TextMode.processInputToLatex`. -/
def insertExpSpace (cs : List Char) : List Char := insertExpSpaceGo cs.length cs

/-! ### Pass 4: `latex.replace(/\^(-?\(.*?\)|\([^)]*\))/g, m => '^{' + m.substring(2, m.length-1) + '}')` -/

/-- Splits a list at the first `)`; both regex alternatives end the
parenthesised exponent at the first closing parenthesis. -/
def breakRParen (cs : List Char) : Option (List Char × List Char) :=
  let inner := cs.takeWhile (· ≠ ')')
  match cs.dropWhile (· ≠ ')') with
  | ')' :: r => some (inner, r)
  | _ => none

/-- Rewrites parenthesised exponents `^(expr)` (and `^-(expr)`) into brace form.
The replacement keeps `m.substring(2, m.length-1)`, i.e. for a match starting
`^-(` the kept exponent still begins with the `(`, exactly as in the source. -/
def expParenGo : Nat → List Char → List Char
  | 0, cs => cs
  | _ + 1, [] => []
  | fuel + 1, '^' :: rest =>
    match rest with
    | '-' :: '(' :: r =>
      match breakRParen r with
      | some (inner, r2) => '^' :: '\x7b' :: '(' :: (inner ++ '\x7d' :: expParenGo fuel r2)
      | none => '^' :: expParenGo fuel rest
    | '(' :: r =>
      match breakRParen r with
      | some (inner, r2) => '^' :: '\x7b' :: (inner ++ '\x7d' :: expParenGo fuel r2)
      | none => '^' :: expParenGo fuel rest
    | _ => '^' :: expParenGo fuel rest
  | fuel + 1, c :: rest => c :: expParenGo fuel rest

/-- The parenthesised-exponent pass of `TextMode.processInputToLatex`. -/
def expParen (cs : List Char) : List Char := expParenGo cs.length cs

/-! ### Pass 5: `latex.replace(/\^-([a-zA-Z0-9]+)/g, '^{-$1}')` -/

/-- Wraps unparenthesised negative exponents in braces. -/
def negExpGo : Nat → List Char → List Char
  | 0, cs => cs
  | _ + 1, [] => []
  | fuel + 1, '^' :: '-' :: rest =>
    let as := rest.takeWhile isAlnumCh
    if as.isEmpty then '^' :: negExpGo fuel ('-' :: rest)
    else '^' :: '\x7b' :: '-' :: (as ++ '\x7d' :: negExpGo fuel (rest.dropWhile isAlnumCh))
  | fuel + 1, c :: rest => c :: negExpGo fuel rest

/-- The negative-exponent pass of `TextMode.processInputToLatex`. -/
def negExp (cs : List Char) : List Char := negExpGo cs.length cs

/-! ### Pass 6: `latex.replace(/\^([a-zA-Z0-9]+)/g, '^{$1}')` -/

/-- Wraps remaining bare exponents in braces. -/
def bareExpGo : Nat → List Char → List Char
  | 0, cs => cs
  | _ + 1, [] => []
  | fuel + 1, '^' :: rest =>
    let as := rest.takeWhile isAlnumCh
    if as.isEmpty then '^' :: bareExpGo fuel rest
    else '^' :: '\x7b' :: (as ++ '\x7d' :: bareExpGo fuel (rest.dropWhile isAlnumCh))
  | fuel + 1, c :: rest => c :: bareExpGo fuel rest

/-- The bare-exponent pass of `TextMode.processInputToLatex`. -/
def bareExp (cs : List Char) : List Char := bareExpGo cs.length cs

/-- Checks that every `^` in the list is immediately followed by `\x7b`,
i.e. that every exponent argument is brace-wrapped. -/
def braceWrapped : List Char → Bool
  | [] => true
  | '^' :: rest =>
    match rest with
    | '\x7b' :: _ => braceWrapped rest
    | _ => false
  | _ :: rest => braceWrapped rest

/-! ### Fourier domain extraction: `latex.match(/(.*)\[(.*),(.*)\]$/)` -/

/-- Splits a list at the last occurrence of `t`:
`lastSplitAt t cs = some (l, r)` iff `cs = l ++ t :: r` with `t ∉ r`. -/
def lastSplitAt (t : Char) : List Char → Option (List Char × List Char)
  | [] => none
  | c :: rest =>
    match lastSplitAt t rest with
    | some (l, r) => some (c :: l, r)
    | none => if c = t then some ([], rest) else none

/-- The decomposition computed by the greedy regex `(.*)\[(.*),(.*)\]$`:
the string must end in `]`; group 2 ends at the last comma before that final
bracket, group 1 ends at the last `[` before that comma. -/
def domainMatch (cs : List Char) : Option (List Char × List Char × List Char) :=
  match cs.getLast? with
  | some ']' =>
    let u := cs.dropLast
    match lastSplitAt ',' u with
    | some (v, hi) =>
      match lastSplitAt '[' v with
      | some (expr, lo) => some (expr, lo, hi)
      | none => none
    | none => none
  | _ => none

/-- The Fourier branch of `TextMode.processInputToLatex`: when a trailing
domain `[a,b]` is found, emits `expr \text{ on } [a,b]`. -/
def fourierDomainRewrite (latex : String) : String :=
  match domainMatch latex.data with
  | some (expr, lo, hi) =>
      String.mk (expr ++ (" \\text\x7b on \x7d [").data ++ lo ++ ',' :: hi ++ [']'])
  | none => latex

/-- The six regex passes of `TextMode.processInputToLatex`, in source order. -/
def basicLatexPasses (input : String) : String :=
  String.mk (bareExp (negExp (expParen (insertExpSpace (insertDigitLetterSpace (removeStars input.data))))))

/-- `TextMode.processInputToLatex(input)` with the operation type read from the
operation selector passed explicitly. -/
def processInputToLatex (operationType : String) (input : String) : String :=
  let latex := basicLatexPasses input
  if operationType = "fourier" then fourierDomainRewrite latex else latex

/-! ### Solve responses and solution rendering (`TextMode.displaySolution`) -/

/-- JavaScript truthiness of a possibly-absent string (`null`/`undefined`/`""` are falsy). -/
def jsTruthy : Option String → Bool
  | some s => !(s == "")
  | none => false

/-- JavaScript `a || b` for a possibly-absent string with a fallback. -/
def jsOr (o : Option String) (fallback : String) : String :=
  match o with
  | some s => if s == "" then fallback else s
  | none => fallback

/-- The `solution` field of a solve response: a plain string or an array of strings. -/
inductive JsSolution where
  | str (s : String)
  | arr (l : List String)
deriving DecidableEq

/-- Body of a `POST /api/solve` response, as consumed by the client. -/
structure SolveResponse where
  error : Option String
  solution : Option JsSolution
  ai_steps : Option (List String)
deriving DecidableEq

/-- JavaScript truthiness of the `solution` field (an array is always truthy). -/
def solTruthy : Option JsSolution → Bool
  | none => false
  | some (JsSolution.str s) => !(s == "")
  | some (JsSolution.arr _) => true

/-- JavaScript `Array.prototype.join(sep)`. -/
def joinWith (sep : String) : List String → String
  | [] => ""
  | [s] => s
  | s :: rest => s ++ sep ++ joinWith sep rest

/-- The multiple-solutions markup built by `displaySolution`: solutions that all
contain `=` are joined with `, \; `; otherwise each gets an `x = ` prefix. -/
def multiSolutionsHtml (sols : List String) : String :=
  if sols.all (fun sol => sol.data.contains '=') then joinWith ", \\; " sols
  else "x = " ++ joinWith ", \\; x = " sols

/-- What `displaySolution` writes into the result element. The katex renderer
is an oracle: `render s = false` models `katex.render` throwing on `s`, which
the source catches, falling back to raw output. -/
inductive ResultContent where
  | errorHtml (msg : String)
  | katexRendered (latex : String)
  | rawHtml (html : String)
  | rawText (text : String)
deriving DecidableEq

/-- The result element produced by `TextMode.displaySolution` (and the
identical logic in `DrawMode.displaySolution`). Being a total function, it
never propagates a renderer exception. -/
def solutionResult (render : String → Bool) (resp : SolveResponse) : ResultContent :=
  if jsTruthy resp.error then ResultContent.errorHtml (jsOr resp.error "")
  else
    match resp.solution with
    | some (JsSolution.arr sols) =>
      if 1 < sols.length then
        let html := multiSolutionsHtml sols
        if render html then ResultContent.katexRendered html else ResultContent.rawHtml html
      else
        let txt := sols.headD ""
        if render txt then ResultContent.katexRendered txt else ResultContent.rawText txt
    | some (JsSolution.str s) =>
      if render s then ResultContent.katexRendered s else ResultContent.rawText s
    | none =>
      if render "" then ResultContent.katexRendered "" else ResultContent.rawText ""

/-! ### Saving calculations (`saveCurrentCalculation`, `TextMode.autoSaveCalculation`)

JavaScript strings that may be `null` are modelled as `String` with `""` for
`null`: within this code they are only consumed through truthiness tests and
the request payload, for which `null` and `""` behave identically. -/

/-- Body of the `POST /api/calculations` request. -/
structure SaveRequest where
  latex_input : String
  operation_type : String
  solution : String
  ai_explanation : String
  title : String
deriving DecidableEq

/-- Observable outcome of a `saveCurrentCalculation` call: whether the title
prompt was shown, the request posted (if any), and any alert raised before
posting. -/
structure SaveOutcome where
  prompted : Bool
  request : Option SaveRequest
  alertMsg : Option String
deriving DecidableEq

/-- The `saveCurrentCalculation` function (auth-client variant with manual
parameters). `domLatex`, `domSolution`, `domExplanation` and `defaultOp` are
the values the DOM fallbacks would produce; `promptAnswer` is what the title
prompt would return if shown. `mLatex … mTitle` are the five manual arguments,
`""` standing for `null`. -/
def saveCurrentCalculation (isAuthenticated : Bool)
    (domLatex domSolution domExplanation defaultOp promptAnswer : String)
    (mLatex mSol mOp mExpl mTitle : String) : SaveOutcome :=
  if !isAuthenticated then
    { prompted := false, request := none, alertMsg := some "Please log in to save calculations" }
  else
    let latexInput := if mLatex == "" then domLatex else mLatex
    let solution := if mSol == "" then domSolution else mSol
    if latexInput == "" || solution == "" then
      { prompted := false, request := none,
        alertMsg := if mLatex == "" && mSol == "" then some "No calculation to save" else none }
    else
      let operationType := if mOp == "" then defaultOp else mOp
      let explanation := if mExpl == "" then domExplanation else mExpl
      let prompted := mTitle == "" && mLatex == ""
      let title := if prompted then promptAnswer else mTitle
      { prompted := prompted,
        request := some { latex_input := latexInput, operation_type := operationType,
                          solution := solution, ai_explanation := explanation, title := title },
        alertMsg := none }

/-- JavaScript `s.charAt(0).toUpperCase() + s.slice(1)`. -/
def capitalizeFirst (s : String) : String :=
  match s.data with
  | [] => ""
  | c :: cs => String.mk (c.toUpper :: cs)

/-- The `solutionText` computed by `autoSaveCalculation`:
`Array.isArray(solution.solution) ? solution.solution.join(', ') : solution.solution`. -/
def autoSaveSolutionText (resp : SolveResponse) : String :=
  match resp.solution with
  | some (JsSolution.arr l) => joinWith ", " l
  | some (JsSolution.str s) => s
  | none => ""

/-- `TextMode.autoSaveCalculation`: returns the five arguments passed on to
`window.saveCurrentCalculation`, or `none` when it bails out because the
current latex or the solution is missing. `nowString` is
`new Date().toLocaleString()`. -/
def autoSaveCalculation (currentLatex : String) (resp : SolveResponse)
    (operationType nowString : String) :
    Option (String × String × String × String × String) :=
  if currentLatex == "" || !solTruthy resp.solution then none
  else
    let solutionText := autoSaveSolutionText resp
    let explanation :=
      match resp.ai_steps with
      | some steps => joinWith "\n" steps
      | none => ""
    let title := capitalizeFirst operationType ++ " - " ++ nowString
    some (currentLatex, solutionText, operationType, explanation, title)

/-- The automatic save path at the end of `TextMode.displaySolution`: entered
only when the session is authenticated and the solve response has no (truthy)
error, it then runs `autoSaveCalculation`, whose arguments are forwarded to
`saveCurrentCalculation`. Returns `none` when no save call is made. -/
def autoSavePath (isAuthenticated : Bool) (resp : SolveResponse)
    (currentLatex operationType nowString : String)
    (domLatex domSolution domExplanation defaultOp promptAnswer : String) :
    Option SaveOutcome :=
  if isAuthenticated && !jsTruthy resp.error then
    match autoSaveCalculation currentLatex resp operationType nowString with
    | some (a, s, o, e, t) =>
      some (saveCurrentCalculation isAuthenticated
              domLatex domSolution domExplanation defaultOp promptAnswer a s o e t)
    | none => none
  else none

/-! ### Auth form submission (`auth.js`) -/

/-- The cookie written by `setCookie(name, value, days)` in `auth.js`:
`document.cookie = name + "=" + (value || "") + expires + "; path=/"`, with
`expires` present only for truthy `days`, set `days*24*60*60*1000` ms ahead. -/
structure CookieSet where
  name : String
  value : String
  expiresAt : Option Int
  path : String
deriving DecidableEq

/-- Effect of `setCookie` given the current time in milliseconds. -/
def setCookieEff (name value : String) (days : Int) (now : Int) : CookieSet :=
  { name := name
    value := if value == "" then "" else value
    expiresAt := if days == 0 then none else some (now + days * 24 * 60 * 60 * 1000)
    path := "/" }

/-- Observable effects of the auth form submit handler after the fetch
resolves: browser-storage writes, cookie writes, navigation, the error message
surfaced, and whether the view was toggled back to the login form. -/
structure AuthSubmitEffects where
  localStoreWrites : List (String × String)
  cookie : Option CookieSet
  redirect : Option String
  errorShown : Option String
  switchedToLogin : Bool
deriving DecidableEq

/-- The response-handling tail of the `auth.js` submit handler (lines 166–189):
`ok` is `response.ok`, `token`/`userJson` are `data.token` and the serialized
`data.user`, `err` is `data.error`. -/
def handleAuthResponse (isLogin ok : Bool) (token userJson : String)
    (err : Option String) (now : Int) : AuthSubmitEffects :=
  if ok then
    if isLogin then
      { localStoreWrites := [("authToken", token), ("currentUser", userJson)]
        cookie := some (setCookieEff "authToken" token 7 now)
        redirect := some "/"
        errorShown := none
        switchedToLogin := false }
    else
      { localStoreWrites := []
        cookie := none
        redirect := none
        errorShown := some "Registration successful! Please login with your username."
        switchedToLogin := true }
  else
    { localStoreWrites := []
      cookie := none
      redirect := none
      errorShown := some (jsOr err (if isLogin then "Login failed" else "Registration failed"))
      switchedToLogin := false }

/-! ### Dashboard sorting (`sortCalculations`) -/

/-- A saved calculation as listed by the dashboard. `created_at` is the
millisecond value of the parsed date. -/
structure Calculation where
  id : Nat
  title : Option String
  operation_type : String
  latex_input : String
  solution : String
  created_at : Int
deriving DecidableEq

/-- `sortCalculations(calculations, sortOption)` from the dashboard script:
a stable sort of a copy of the input, descending by date for `date-desc`,
ascending for `date-asc`, by `operation_type` (`localeCompare`, which on these
ASCII operation names is lexicographic order) for `type`; any other option
returns the copy unchanged. -/
def sortCalculations (calculations : List Calculation) (sortOption : String) :
    List Calculation :=
  if sortOption = "date-desc" then
    calculations.mergeSort (fun a b => decide (b.created_at ≤ a.created_at))
  else if sortOption = "date-asc" then
    calculations.mergeSort (fun a b => decide (a.created_at ≤ b.created_at))
  else if sortOption = "type" then
    calculations.mergeSort (fun a b => decide (a.operation_type ≤ b.operation_type))
  else calculations

/-! ### Cookies (`getCookie` / `setCookie`) and the browser cookie jar

`getCookie` parses the `document.cookie` string exactly as the source does.
The browser side — that `document.cookie` reads back as `n1=v1; n2=v2; …`
for the stored cookies, and that assigning a cookie adds or replaces the
entry of that name — is the standard cookie-jar behaviour the code relies
on, modelled by `cookieString` and `setCookieJar` over an association list. -/

/-- JavaScript `document.cookie.split(';')` on a character list. -/
def splitOnSemi : List Char → List (List Char)
  | [] => [[]]
  | c :: rest =>
    if c = ';' then [] :: splitOnSemi rest
    else
      match splitOnSemi rest with
      | g :: gs => (c :: g) :: gs
      | [] => [[c]]

/-- The `while (c.charAt(0) === ' ') c = c.substring(1)` loop of `getCookie`. -/
def trimLead (cs : List Char) : List Char := cs.dropWhile (· = ' ')

/-- The search loop of `getCookie`: first split entry that, after trimming
leading spaces, starts with `name=`; returns the rest of that entry. -/
def findCookieEntry (nameEQ : List Char) : List (List Char) → Option (List Char)
  | [] => none
  | c :: rest =>
    let c2 := trimLead c
    if nameEQ.isPrefixOf c2 then some (c2.drop nameEQ.length)
    else findCookieEntry nameEQ rest

/-- `getCookie(name)` reading from the given `document.cookie` string. -/
def getCookie (cookieStr : List Char) (name : List Char) : Option (List Char) :=
  findCookieEntry (name ++ ['=']) (splitOnSemi cookieStr)

/-- The browser's `document.cookie` read-back for a jar of stored cookies:
entries joined by `"; "`. -/
def cookieString : List (List Char × List Char) → List Char
  | [] => []
  | [(n, v)] => n ++ '=' :: v
  | (n, v) :: rest => n ++ '=' :: (v ++ ';' :: ' ' :: cookieString rest)

/-- The browser's jar update on a cookie assignment (as performed by
`setCookie`): replace the entry of the same name, or append a new one. -/
def setCookieJar : List (List Char × List Char) → List Char → List Char →
    List (List Char × List Char)
  | [], n, v => [(n, v)]
  | (m, w) :: rest, n, v =>
    if m = n then (n, v) :: rest else (m, w) :: setCookieJar rest n v

/-- First value stored in the jar under the given name. -/
def lookupJar (name : List Char) : List (List Char × List Char) → Option (List Char)
  | [] => none
  | (n, v) :: rest => if n = name then some v else lookupJar name rest

/-- A well-formed cookie name: no `;`, no `=`, no space (a cookie-name token). -/
def wfName (cs : List Char) : Prop := ∀ c ∈ cs, c ≠ ';' ∧ c ≠ '=' ∧ c ≠ ' '

/-- A well-formed cookie jar: token names and semicolon-free values. -/
def wfJar (jar : List (List Char × List Char)) : Prop :=
  ∀ p ∈ jar, wfName p.1 ∧ ';' ∉ p.2

instance (cs : List Char) : Decidable (wfName cs) := by
  unfold wfName
  infer_instance

instance (jar : List (List Char × List Char)) : Decidable (wfJar jar) := by
  unfold wfJar
  infer_instance

/-! ### Logout (`part_001` auth client and `frontend/scripts/dashboard.js`) -/

/-- Client-side session state touched by `logout`. The cookie jar holds the
browser's stored cookies (assigning an already-expired cookie deletes the
entry of that name). -/
structure ClientSession where
  isAuthenticated : Bool
  currentUser : Option String
  authToken : Option String
  localStorage : List (String × String)
  cookieJar : List (List Char × List Char)
  location : String
deriving DecidableEq

/-- `localStorage.removeItem(key)`. -/
def removeItem (key : String) (st : List (String × String)) : List (String × String) :=
  st.filter (fun p => p.1 ≠ key)

/-- `localStorage.getItem(key)`. -/
def getItem (key : String) (st : List (String × String)) : Option String :=
  match st with
  | [] => none
  | (k, v) :: rest => if k = key then some v else getItem key rest

/-- The auth-client `logout()`: clears the auth globals, removes both storage
keys, expires the `authToken` cookie (the browser drops it from the jar), and
navigates to `/auth`. -/
def logoutMain (s : ClientSession) : ClientSession :=
  { isAuthenticated := false
    currentUser := none
    authToken := none
    localStorage := removeItem "currentUser" (removeItem "authToken" s.localStorage)
    cookieJar := s.cookieJar.filter (fun p => p.1 ≠ ("authToken").data)
    location := "/auth" }

/-- The `logout()` of `frontend/scripts/dashboard.js` (lines 162–173): removes
the two storage keys and navigates to `/login`; it does not touch the cookie. -/
def logoutDashboard (s : ClientSession) : ClientSession :=
  { s with
    localStorage := removeItem "currentUser" (removeItem "authToken" s.localStorage)
    location := "/login" }

/-! ## Helper lemmas -/

theorem joinWith_map_prepend (p sep : String) :
    ∀ l : List String, l ≠ [] →
      p ++ joinWith (sep ++ p) l = joinWith sep (l.map (fun s => p ++ s))
  | [], h => absurd rfl h
  | [s], _ => by simp [joinWith]
  | s :: t :: rest, _ => by
    have ih := joinWith_map_prepend p sep (t :: rest) (by simp)
    simp only [joinWith, List.map] at ih ⊢
    rw [← ih]
    simp [String.append_assoc]

theorem lastSplitAt_eq_none {t : Char} : ∀ {cs : List Char}, t ∉ cs → lastSplitAt t cs = none
  | [], _ => rfl
  | c :: rest, h => by
    have hrest : t ∉ rest := fun hm => h (List.mem_cons_of_mem c hm)
    have hc : c ≠ t := fun hc => h (hc ▸ List.mem_cons_self c rest)
    simp [lastSplitAt, lastSplitAt_eq_none hrest, hc]

theorem lastSplitAt_append (t : Char) : ∀ (l : List Char) {r : List Char}, t ∉ r →
    lastSplitAt t (l ++ t :: r) = some (l, r)
  | [], r, h => by simp [lastSplitAt, lastSplitAt_eq_none h]
  | c :: l', r, h => by
    simp [lastSplitAt, lastSplitAt_append t l' h]

/-! ## Claim theorems -/

/-- C2: for a solve response whose solution is a list of more than one string,
the renderer joins the elements with `, \; ` when every element contains `=`
(adding no `x = ` prefix), and prefixes `x = ` to each element when no element
contains `=`; for `{solution:["x=1","x=-1"]}` the rendered string is exactly
`x=1, \; x=-1`. -/
theorem multi_solution_join :
    (∀ sols : List String, 1 < sols.length →
      sols.all (fun sol => sol.data.contains '=') = true →
      multiSolutionsHtml sols = joinWith ", \\; " sols)
    ∧ (∀ sols : List String, 1 < sols.length →
      sols.all (fun sol => !(sol.data.contains '=')) = true →
      multiSolutionsHtml sols = joinWith ", \\; " (sols.map (fun s => "x = " ++ s)))
    ∧ solutionResult (fun _ => true)
        { error := none, solution := some (JsSolution.arr ["x=1", "x=-1"]), ai_steps := none }
        = ResultContent.katexRendered "x=1, \\; x=-1" := by
  refine ⟨?_, ?_, ?_⟩
  · intro sols _ hall
    unfold multiSolutionsHtml
    rw [if_pos hall]
  · intro sols hlen hnone
    match sols, hlen with
    | a :: rest, _ =>
      have hfalse : (a :: rest).all (fun sol => sol.data.contains '=') = false := by
        simp only [List.all_cons, Bool.and_eq_false_iff]
        left
        simp only [List.all_cons, Bool.and_eq_true, Bool.not_eq_true'] at hnone
        exact hnone.1
      have hsep : (", \\; x = " : String) = ", \\; " ++ "x = " := rfl
      unfold multiSolutionsHtml
      rw [if_neg (by rw [hfalse]; exact Bool.false_ne_true), hsep]
      exact joinWith_map_prepend "x = " ", \\; " (a :: rest) (by simp)
  · decide

/-- C2 witness: concrete instances of both join behaviours. -/
theorem multi_solution_join_witness :
    multiSolutionsHtml ["x=1", "x=-1"] = joinWith ", \\; " ["x=1", "x=-1"]
    ∧ multiSolutionsHtml ["1", "-1"]
        = joinWith ", \\; " (["1", "-1"].map (fun s => "x = " ++ s)) :=
  ⟨multi_solution_join.1 ["x=1", "x=-1"] (by decide) (by decide),
   multi_solution_join.2.1 ["1", "-1"] (by decide) (by decide)⟩

/-- C3: the text-mode converter removes explicit `*` signs, inserts a space
between a digit and a following letter and before an exponentiated term,
brace-wraps parenthesised and bare exponents, and on `t^2e^(-3t)` produces
output with every exponent brace-wrapped and a space before `e` (note the
digit-letter pass also spaces `3t` inside the exponent). -/
theorem text_input_latex_conversion :
    processInputToLatex "solve" "t^2e^(-3t)" = "t^\x7b2\x7d e^\x7b-3 t\x7d"
    ∧ processInputToLatex "laplace" "t^2e^(-3t)" = "t^\x7b2\x7d e^\x7b-3 t\x7d"
    ∧ braceWrapped (processInputToLatex "laplace" "t^2e^(-3t)").data = true
    ∧ processInputToLatex "solve" "2*x" = "2 x"
    ∧ String.mk (expParen (("e^(-3t)").data)) = "e^\x7b-3t\x7d"
    ∧ String.mk (bareExp (("t^2").data)) = "t^\x7b2\x7d"
    ∧ String.mk (insertDigitLetterSpace (("2x").data)) = "2 x"
    ∧ String.mk (insertExpSpace (("ab^2").data)) = "a b^2" := by
  refine ⟨?_, ?_, ?_, ?_, ?_, ?_, ?_, ?_⟩ <;> decide

/-- C4: for operation `fourier`, a trailing `[a,b]` is stripped and replaced
by a ` \text{ on } [a,b]` clause with the same bounds; other operation types
never reach the domain rewrite, and without a trailing bracketed pair the
string is unchanged; `x^2[-3.14,3.14]` gets an `on [-3.14,3.14]` clause. -/
theorem fourier_domain_extraction :
    (∀ p lo hi : List Char, ',' ∉ hi → '[' ∉ lo →
      fourierDomainRewrite (String.mk (p ++ '[' :: lo ++ ',' :: hi ++ [']'])) =
        String.mk (p ++ (" \\text\x7b on \x7d [").data ++ lo ++ ',' :: hi ++ [']']))
    ∧ (∀ op input, op ≠ "fourier" → processInputToLatex op input = basicLatexPasses input)
    ∧ (∀ s : String, domainMatch s.data = none → fourierDomainRewrite s = s)
    ∧ processInputToLatex "fourier" "x^2[-3.14,3.14]"
        = "x^\x7b2\x7d \\text\x7b on \x7d [-3.14,3.14]" := by
  refine ⟨?_, ?_, ?_, ?_⟩
  · intro p lo hi hhi hlo
    have hshape : p ++ '[' :: lo ++ ',' :: hi ++ [']']
        = (p ++ '[' :: lo ++ ',' :: hi) ++ [']'] := by
      simp [List.append_assoc]
    have hu : lastSplitAt ',' (p ++ '[' :: lo ++ ',' :: hi) = some (p ++ '[' :: lo, hi) := by
      have : p ++ '[' :: lo ++ ',' :: hi = (p ++ '[' :: lo) ++ ',' :: hi := by
        simp [List.append_assoc]
      rw [this, lastSplitAt_append ',' (p ++ '[' :: lo) hhi]
    have hv : lastSplitAt '[' (p ++ '[' :: lo) = some (p, lo) :=
      lastSplitAt_append '[' p hlo
    simp only [fourierDomainRewrite, domainMatch, hshape, List.getLast?_concat,
      List.dropLast_concat, hu, hv]
  · intro op input hop
    simp [processInputToLatex, hop]
  · intro s h
    simp [fourierDomainRewrite, h]
  · decide

/-- C4 witness: the domain rewrite applied at concrete bounds. -/
theorem fourier_domain_extraction_witness :
    fourierDomainRewrite
        (String.mk ((("e").data) ++ '[' :: (("a").data) ++ ',' :: (("b").data) ++ [']'])) =
      String.mk ((("e").data) ++ (" \\text\x7b on \x7d [").data
        ++ (("a").data) ++ ',' :: (("b").data) ++ [']']) :=
  fourier_domain_extraction.1 (("e").data) (("a").data) (("b").data) (by decide) (by decide)

/-- C8: `sortCalculations` returns a permutation of its input, ordered by
descending `created_at` for `date-desc`, ascending `created_at` for
`date-asc`, and alphabetically by `operation_type` for `type`; any other
option returns the input order unchanged. -/
theorem sort_calculations_spec :
    (∀ l, (sortCalculations l "date-desc").Perm l
      ∧ (sortCalculations l "date-desc").Pairwise (fun a b => b.created_at ≤ a.created_at))
    ∧ (∀ l, (sortCalculations l "date-asc").Perm l
      ∧ (sortCalculations l "date-asc").Pairwise (fun a b => a.created_at ≤ b.created_at))
    ∧ (∀ l, (sortCalculations l "type").Perm l
      ∧ (sortCalculations l "type").Pairwise (fun a b => a.operation_type ≤ b.operation_type))
    ∧ (∀ l opt, opt ≠ "date-desc" → opt ≠ "date-asc" → opt ≠ "type" →
      sortCalculations l opt = l) := by
  refine ⟨?_, ?_, ?_, ?_⟩
  · intro l
    have hunf : sortCalculations l "date-desc"
        = l.mergeSort (fun a b => decide (b.created_at ≤ a.created_at)) := by
      unfold sortCalculations
      rw [if_pos rfl]
    constructor
    · rw [hunf]; exact List.mergeSort_perm l _
    · rw [hunf]
      have hs := @List.sorted_mergeSort Calculation
        (fun a b => decide (b.created_at ≤ a.created_at))
        (fun a b c h1 h2 => by simp at h1 h2 ⊢; omega)
        (fun a b => by simp [Int.le_total]) l
      exact hs.imp (fun hab => by simpa using hab)
  · intro l
    have hunf : sortCalculations l "date-asc"
        = l.mergeSort (fun a b => decide (a.created_at ≤ b.created_at)) := by
      unfold sortCalculations
      rw [if_neg (by decide), if_pos rfl]
    constructor
    · rw [hunf]; exact List.mergeSort_perm l _
    · rw [hunf]
      have hs := @List.sorted_mergeSort Calculation
        (fun a b => decide (a.created_at ≤ b.created_at))
        (fun a b c h1 h2 => by simp at h1 h2 ⊢; omega)
        (fun a b => by simp [Int.le_total]) l
      exact hs.imp (fun hab => by simpa using hab)
  · intro l
    have hunf : sortCalculations l "type"
        = l.mergeSort (fun a b => decide (a.operation_type ≤ b.operation_type)) := by
      unfold sortCalculations
      rw [if_neg (by decide), if_neg (by decide), if_pos rfl]
    constructor
    · rw [hunf]; exact List.mergeSort_perm l _
    · rw [hunf]
      have hs := @List.sorted_mergeSort Calculation
        (fun a b => decide (a.operation_type ≤ b.operation_type))
        (fun a b c h1 h2 => by simp at h1 h2 ⊢; exact le_trans h1 h2)
        (fun a b => by simp [le_total]) l
      exact hs.imp (fun hab => by simpa using hab)
  · intro l opt h1 h2 h3
    unfold sortCalculations
    rw [if_neg (by simpa using h1), if_neg (by simpa using h2), if_neg (by simpa using h3)]

/-- C8 witness: an unknown sort option returns the list unchanged. -/
theorem sort_calculations_spec_witness :
    sortCalculations
        [{ id := 1, title := none, operation_type := "solve", latex_input := "x",
           solution := "1", created_at := 5 }] "alphabetical"
      = [{ id := 1, title := none, operation_type := "solve", latex_input := "x",
           solution := "1", created_at := 5 }] :=
  sort_calculations_spec.2.2.2 _ "alphabetical" (by decide) (by decide) (by decide)

/-- C6 counterexample: a successful (2xx) register response stores no session
at all — no browser-storage write and no cookie — refuting the claim that
both login and register store the session on success. -/
theorem register_success_stores_no_session :
    ("authToken", "tok") ∉ (handleAuthResponse false true "tok" "user" none 0).localStoreWrites
    ∧ ("currentUser", "user") ∉ (handleAuthResponse false true "tok" "user" none 0).localStoreWrites
    ∧ (handleAuthResponse false true "tok" "user" none 0).localStoreWrites = []
    ∧ (handleAuthResponse false true "tok" "user" none 0).cookie = none
    ∧ (handleAuthResponse false true "tok" "user" none 0).switchedToLogin = true := by
  refine ⟨by decide, by decide, rfl, rfl, rfl⟩

/-- C6 amended: only a successful login stores the session — token under
`authToken`, user under `currentUser`, plus the `authToken` cookie with a
7-day expiry and path `/` — and redirects; a successful register stores
nothing and switches back to the login form; on a failed response the message
from the body (or a generic fallback) is surfaced and no session is stored. -/
theorem auth_success_session_storage :
    (∀ (token userJson : String) (err : Option String) (now : Int),
      handleAuthResponse true true token userJson err now =
        { localStoreWrites := [("authToken", token), ("currentUser", userJson)]
          cookie := some { name := "authToken", value := token,
                           expiresAt := some (now + 7 * 24 * 60 * 60 * 1000), path := "/" }
          redirect := some "/"
          errorShown := none
          switchedToLogin := false })
    ∧ (∀ (token userJson : String) (err : Option String) (now : Int),
      handleAuthResponse false true token userJson err now =
        { localStoreWrites := []
          cookie := none
          redirect := none
          errorShown := some "Registration successful! Please login with your username."
          switchedToLogin := true })
    ∧ (∀ (isLogin : Bool) (token userJson : String) (err : Option String) (now : Int),
      handleAuthResponse isLogin false token userJson err now =
        { localStoreWrites := []
          cookie := none
          redirect := none
          errorShown := some (jsOr err (if isLogin then "Login failed" else "Registration failed"))
          switchedToLogin := false }) := by
  refine ⟨?_, ?_, ?_⟩
  · intro token userJson err now
    unfold handleAuthResponse setCookieEff
    by_cases h : token = ""
    · subst h; simp
    · simp [h]
  · intro token userJson err now
    rfl
  · intro isLogin token userJson err now
    rfl

/-- C9: when the katex renderer throws on a solution string, the string is
still written into the result element as raw output and the exception is
caught inside `displaySolution` (modelled by `solutionResult` being total). -/
theorem katex_failure_raw_text :
    (∀ (render : String → Bool) (s : String) (steps : Option (List String)),
      render s = false →
      solutionResult render { error := none, solution := some (JsSolution.str s), ai_steps := steps }
        = ResultContent.rawText s)
    ∧ (∀ (render : String → Bool) (sols : List String) (steps : Option (List String)),
      1 < sols.length →
      render (multiSolutionsHtml sols) = false →
      solutionResult render { error := none, solution := some (JsSolution.arr sols), ai_steps := steps }
        = ResultContent.rawHtml (multiSolutionsHtml sols)) := by
  constructor
  · intro render s steps h
    simp [solutionResult, jsTruthy, h]
  · intro render sols steps hlen h
    simp [solutionResult, jsTruthy, hlen, h]

/-- C9 witness: a renderer that always throws still yields raw output. -/
theorem katex_failure_raw_text_witness :
    solutionResult (fun _ => false)
        { error := none, solution := some (JsSolution.str "\\frac1"), ai_steps := none }
      = ResultContent.rawText "\\frac1"
    ∧ solutionResult (fun _ => false)
        { error := none, solution := some (JsSolution.arr ["1", "2"]), ai_steps := none }
      = ResultContent.rawHtml (multiSolutionsHtml ["1", "2"]) :=
  ⟨katex_failure_raw_text.1 (fun _ => false) "\\frac1" none rfl,
   katex_failure_raw_text.2 (fun _ => false) ["1", "2"] none (by decide) rfl⟩

/-- C1: a calculation is only created after a successful solve —
`saveCurrentCalculation` posts to `/api/calculations` only when both the latex
input and the solution string are non-empty, and the automatic save path of
`displaySolution` is entered only when authenticated with a solve response
carrying no error. -/
theorem calculation_only_after_successful_solve :
    (∀ (isAuth : Bool) (dl ds de dop pa a s o e t : String) (req : SaveRequest),
      (saveCurrentCalculation isAuth dl ds de dop pa a s o e t).request = some req →
      req.latex_input ≠ "" ∧ req.solution ≠ "")
    ∧ (∀ (isAuth : Bool) (resp : SolveResponse) (cl op now dl ds de dop pa : String),
      autoSavePath isAuth resp cl op now dl ds de dop pa ≠ none →
      isAuth = true ∧ jsTruthy resp.error = false) := by
  constructor
  · intro isAuth dl ds de dop pa a s o e t req h
    cases isAuth with
    | false => simp [saveCurrentCalculation] at h
    | true =>
      simp only [saveCurrentCalculation, Bool.not_true, Bool.false_eq_true, if_false] at h
      by_cases hc : ((if a == "" then dl else a) == "" || (if s == "" then ds else s) == "") = true
      · rw [if_pos hc] at h
        simp at h
      · rw [if_neg hc] at h
        simp only [Option.some.injEq] at h
        simp only [Bool.or_eq_true, not_or, beq_iff_eq] at hc
        refine ⟨?_, ?_⟩ <;> rw [← h]
        · simpa using hc.1
        · simpa using hc.2
  · intro isAuth resp cl op now dl ds de dop pa h
    by_cases hc : (isAuth && !jsTruthy resp.error) = true
    · rcases Bool.and_eq_true_iff.mp hc with ⟨h1, h2⟩
      exact ⟨h1, by simpa using h2⟩
    · exfalso
      apply h
      simp [autoSavePath, Bool.eq_false_iff.mpr hc]

/-- C1 witness: a concrete posted request has non-empty input and solution,
and a concrete entered auto-save path implies an error-free response. -/
theorem calculation_only_after_successful_solve_witness :
    (("x^2" : String) ≠ "" ∧ ("x=1" : String) ≠ "")
    ∧ (true = true ∧ jsTruthy (none : Option String) = false) := by
  constructor
  · have h := calculation_only_after_successful_solve.1 true "" "" "" "solve" ""
      "x^2" "x=1" "solve" "" "T"
      { latex_input := "x^2", operation_type := "solve", solution := "x=1",
        ai_explanation := "", title := "T" } (by decide)
    exact h
  · exact calculation_only_after_successful_solve.2 true
      { error := none, solution := some (JsSolution.str "x=1"), ai_steps := none }
      "x^2" "solve" "1/1/2025" "" "" "" "" "" (by decide)

/-- C5: an error-free solve result obtained while authenticated (with the
non-empty latex and solution the solve path guarantees) is persisted
automatically without prompting, with title `OperationType - timestamp`;
the title prompt is shown only on the manual path, invoked with no arguments. -/
theorem auto_save_generated_title :
    (∀ (resp : SolveResponse) (cl op now dl ds de dop pa : String),
      jsTruthy resp.error = false →
      solTruthy resp.solution = true →
      autoSaveSolutionText resp ≠ "" →
      cl ≠ "" →
      op ≠ "" →
      ∃ out : SaveOutcome,
        autoSavePath true resp cl op now dl ds de dop pa = some out
        ∧ out.prompted = false
        ∧ ∃ req : SaveRequest, out.request = some req
            ∧ req.title = capitalizeFirst op ++ " - " ++ now
            ∧ req.latex_input = cl
            ∧ req.operation_type = op
            ∧ req.solution = autoSaveSolutionText resp)
    ∧ (∀ dl ds de dop pa : String, dl ≠ "" → ds ≠ "" →
      (saveCurrentCalculation true dl ds de dop pa "" "" "" "" "").prompted = true) := by
  constructor
  · intro resp cl op now dl ds de dop pa herr hsol htext hcl hop
    have hcl' : (cl == "") = false := by simpa using hcl
    have htext' : (autoSaveSolutionText resp == "") = false := by simpa using htext
    have hop' : (op == "") = false := by simpa using hop
    simp only [autoSavePath, herr, hsol, Bool.not_false, Bool.and_self, if_true,
      autoSaveCalculation, hcl', Bool.false_or, Bool.not_true, Bool.false_eq_true, if_false,
      saveCurrentCalculation, htext', hop', Bool.and_false]
    exact ⟨_, rfl, rfl, _, rfl, rfl, rfl, rfl, rfl⟩
  · intro dl ds de dop pa hdl hds
    have hdl' : (dl == "") = false := by simpa using hdl
    have hds' : (ds == "") = false := by simpa using hds
    simp [saveCurrentCalculation, hdl', hds']

/-- C5 witness: a concrete error-free authenticated solve auto-saves with the
generated title, and the concrete zero-argument manual save prompts. -/
theorem auto_save_generated_title_witness :
    (∃ out : SaveOutcome,
      autoSavePath true
          { error := none, solution := some (JsSolution.str "x=2"), ai_steps := none }
          "x+1=3" "solve" "1/1/2025" "" "" "" "" "" = some out
      ∧ out.prompted = false
      ∧ ∃ req : SaveRequest, out.request = some req
          ∧ req.title = capitalizeFirst "solve" ++ " - " ++ "1/1/2025"
          ∧ req.latex_input = "x+1=3"
          ∧ req.operation_type = "solve"
          ∧ req.solution = autoSaveSolutionText
              { error := none, solution := some (JsSolution.str "x=2"), ai_steps := none })
    ∧ (saveCurrentCalculation true "x^2" "x=1" "" "solve" "" "" "" "" "" "").prompted = true :=
  ⟨auto_save_generated_title.1
      { error := none, solution := some (JsSolution.str "x=2"), ai_steps := none }
      "x+1=3" "solve" "1/1/2025" "" "" "" "" ""
      (by decide) (by decide) (by decide) (by decide) (by decide),
   auto_save_generated_title.2 "x^2" "x=1" "" "solve" "" (by decide) (by decide)⟩

theorem getItem_removeItem (k j : String) (st : List (String × String)) :
    getItem k (removeItem j st) = if k = j then none else getItem k st := by
  induction st with
  | nil => simp [getItem, removeItem]
  | cons p rest ih =>
    obtain ⟨a, b⟩ := p
    simp only [removeItem, List.filter_cons] at ih ⊢
    by_cases ha : a = j <;> by_cases hk : k = j <;> by_cases hak : a = k <;>
      simp_all [getItem]

/-- C7 counterexample: the dashboard-page `logout` leaves the `authToken`
cookie in place — after it runs, `getCookie` still returns the token, so
session data remains in the cookies, refuting the claim for this logout. -/
theorem dashboard_logout_keeps_cookie :
    (logoutDashboard
      { isAuthenticated := true, currentUser := some "u", authToken := some "t",
        localStorage := [("authToken", "t"), ("currentUser", "u")],
        cookieJar := [((("authToken").data), (("t").data))],
        location := "/dashboard" }).cookieJar
      = [((("authToken").data), (("t").data))]
    ∧ getCookie
        (cookieString (logoutDashboard
          { isAuthenticated := true, currentUser := some "u", authToken := some "t",
            localStorage := [("authToken", "t"), ("currentUser", "u")],
            cookieJar := [((("authToken").data), (("t").data))],
            location := "/dashboard" }).cookieJar)
        (("authToken").data)
      = some (("t").data) := by
  refine ⟨rfl, ?_⟩
  decide

/-- C7 amended: the auth-client `logout` removes both storage keys, clears the
`authToken` cookie and redirects to the sign-in view from every state; the
dashboard-page `logout` removes the two storage keys and redirects but leaves
the cookie jar untouched, so the `authToken` cookie can survive it. -/
theorem logout_clears_session :
    (∀ s : ClientSession,
      (logoutMain s).isAuthenticated = false
      ∧ (logoutMain s).currentUser = none
      ∧ (logoutMain s).authToken = none
      ∧ getItem "authToken" (logoutMain s).localStorage = none
      ∧ getItem "currentUser" (logoutMain s).localStorage = none
      ∧ (∀ p ∈ (logoutMain s).cookieJar, p.1 ≠ ("authToken").data)
      ∧ (logoutMain s).location = "/auth")
    ∧ (∀ s : ClientSession,
      getItem "authToken" (logoutDashboard s).localStorage = none
      ∧ getItem "currentUser" (logoutDashboard s).localStorage = none
      ∧ (logoutDashboard s).cookieJar = s.cookieJar
      ∧ (logoutDashboard s).location = "/login") := by
  constructor
  · intro s
    refine ⟨rfl, rfl, rfl, ?_, ?_, ?_, rfl⟩
    · show getItem "authToken" (removeItem "currentUser" (removeItem "authToken" s.localStorage)) = none
      rw [getItem_removeItem, if_neg (by decide), getItem_removeItem, if_pos rfl]
    · show getItem "currentUser" (removeItem "currentUser" (removeItem "authToken" s.localStorage)) = none
      rw [getItem_removeItem, if_pos rfl]
    · intro p hp
      have := List.of_mem_filter hp
      simpa using this
  · intro s
    refine ⟨?_, ?_, rfl, rfl⟩
    · show getItem "authToken" (removeItem "currentUser" (removeItem "authToken" s.localStorage)) = none
      rw [getItem_removeItem, if_neg (by decide), getItem_removeItem, if_pos rfl]
    · show getItem "currentUser" (removeItem "currentUser" (removeItem "authToken" s.localStorage)) = none
      rw [getItem_removeItem, if_pos rfl]

/-- C7 witness: the amended statement applied to a concrete session. -/
theorem logout_clears_session_witness :
    getItem "authToken" (logoutMain
      { isAuthenticated := true, currentUser := some "u", authToken := some "t",
        localStorage := [("authToken", "t"), ("currentUser", "u")],
        cookieJar := [((("authToken").data), (("t").data))],
        location := "/" }).localStorage = none
    ∧ (logoutMain
      { isAuthenticated := true, currentUser := some "u", authToken := some "t",
        localStorage := [("authToken", "t"), ("currentUser", "u")],
        cookieJar := [((("authToken").data), (("t").data))],
        location := "/" }).location = "/auth" :=
  ⟨((logout_clears_session.1 _).2.2.2.1),
   ((logout_clears_session.1 _).2.2.2.2.2.2)⟩

theorem splitOnSemi_ne_nil : ∀ cs : List Char, splitOnSemi cs ≠ []
  | [] => by simp [splitOnSemi]
  | c :: rest => by
    by_cases hc : c = ';'
    · simp [splitOnSemi, hc]
    · cases h : splitOnSemi rest with
      | nil => simp [splitOnSemi, hc, h]
      | cons g gs => simp [splitOnSemi, hc, h]

theorem splitOnSemi_no_semi : ∀ {l : List Char}, ';' ∉ l → splitOnSemi l = [l]
  | [], _ => rfl
  | c :: rest, h => by
    have hc : c ≠ ';' := fun hcc => h (hcc ▸ List.mem_cons_self c rest)
    have hrest : ';' ∉ rest := fun hm => h (List.mem_cons_of_mem c hm)
    simp [splitOnSemi, hc, splitOnSemi_no_semi hrest]

theorem splitOnSemi_append : ∀ {l : List Char} (r : List Char), ';' ∉ l →
    splitOnSemi (l ++ ';' :: r) = l :: splitOnSemi r
  | [], r, _ => by simp [splitOnSemi]
  | c :: l', r, h => by
    have hc : c ≠ ';' := fun hcc => h (hcc ▸ List.mem_cons_self c l')
    have hl' : ';' ∉ l' := fun hm => h (List.mem_cons_of_mem c hm)
    have ih := splitOnSemi_append r hl'
    simp only [List.cons_append, splitOnSemi, List.append_eq]
    rw [if_neg hc, ih]

theorem trimLead_no_space_head {cs : List Char} (h : ∀ c ∈ cs.take 1, c ≠ ' ') :
    trimLead cs = cs := by
  cases cs with
  | nil => rfl
  | cons c rest =>
    have hc : c ≠ ' ' := h c (by simp)
    simp [trimLead, List.dropWhile_cons, hc]

theorem entry_head_no_space {n : List Char} (hn : wfName n) (v : List Char) :
    ∀ c ∈ (n ++ '=' :: v).take 1, c ≠ ' ' := by
  cases n with
  | nil => intro c hc; simp at hc; subst hc; decide
  | cons a n' =>
    intro c hc
    simp at hc
    rw [hc]
    exact (hn a (List.mem_cons_self a n')).2.2

theorem otherName_not_isPrefixOf (v : List Char) :
    ∀ (name n : List Char), n ≠ name → '=' ∉ n → '=' ∉ name →
      (name ++ ['=']).isPrefixOf (n ++ '=' :: v) = false
  | [], [], hne, _, _ => absurd rfl hne
  | [], c :: n', _, hn, _ => by
    have hc : c ≠ '=' := fun h => hn (h ▸ List.mem_cons_self c n')
    simp [List.isPrefixOf, hc.symm]
  | a :: name', [], _, _, hm => by
    have ha : a ≠ '=' := fun h => hm (h ▸ List.mem_cons_self a name')
    simp [List.isPrefixOf, ha]
  | a :: name', c :: n', hne, hn, hm => by
    by_cases hac : a = c
    · subst hac
      have hne' : n' ≠ name' := fun h => hne (h ▸ rfl)
      have hn' : '=' ∉ n' := fun h => hn (List.mem_cons_of_mem _ h)
      have hm' : '=' ∉ name' := fun h => hm (List.mem_cons_of_mem _ h)
      simp [List.isPrefixOf, otherName_not_isPrefixOf v name' n' hne' hn' hm']
    · simp [List.isPrefixOf, hac]

theorem isPrefixOf_own_entry (name v : List Char) :
    (name ++ ['=']).isPrefixOf (name ++ '=' :: v) = true := by
  have : name ++ '=' :: v = (name ++ ['=']) ++ v := by simp
  rw [this]
  exact List.isPrefixOf_iff_prefix.mpr (List.prefix_append _ _)

theorem own_entry_drop (name v : List Char) :
    (name ++ '=' :: v).drop (name ++ ['=']).length = v := by
  have : name ++ '=' :: v = (name ++ ['=']) ++ v := by simp
  rw [this, List.drop_left]

theorem findCookieEntry_space_head (nameEQ g : List Char) (gs : List (List Char)) :
    findCookieEntry nameEQ ((' ' :: g) :: gs) = findCookieEntry nameEQ (g :: gs) := by
  simp [findCookieEntry, trimLead, List.dropWhile_cons]

theorem nameEQ_not_prefix_nil (name : List Char) :
    (name ++ ['=']).isPrefixOf ([] : List Char) = false := by
  cases name <;> simp [List.isPrefixOf]

theorem getCookie_cookieString (name : List Char) (hn : wfName name) :
    ∀ jar : List (List Char × List Char), wfJar jar →
      getCookie (cookieString jar) name = lookupJar name jar
  | [], _ => by
    simp [getCookie, cookieString, splitOnSemi, findCookieEntry, trimLead, lookupJar,
      nameEQ_not_prefix_nil]
  | (n, v) :: rest, hwf => by
    have hwfn : wfName n := (hwf (n, v) (List.mem_cons_self _ _)).1
    have hwfv : ';' ∉ v := (hwf (n, v) (List.mem_cons_self _ _)).2
    have hnosemi : ';' ∉ n ++ '=' :: v := by
      intro hmem
      rcases List.mem_append.mp hmem with h1 | h1
      · exact (hwfn ';' h1).1 rfl
      · rcases List.mem_cons.mp h1 with h2 | h2
        · exact absurd h2.symm (by decide)
        · exact hwfv h2
    have htrim : trimLead (n ++ '=' :: v) = n ++ '=' :: v :=
      trimLead_no_space_head (entry_head_no_space hwfn v)
    cases rest with
    | nil =>
      have hsplit : splitOnSemi (cookieString [(n, v)]) = [n ++ '=' :: v] := by
        simp only [cookieString]
        exact splitOnSemi_no_semi hnosemi
      by_cases hname : n = name
      · subst hname
        simp [getCookie, hsplit, findCookieEntry, htrim, isPrefixOf_own_entry,
          own_entry_drop, lookupJar]
      · have hnp := otherName_not_isPrefixOf v name n hname
          (fun h => (hwfn '=' h).2.1 rfl) (fun h => (hn '=' h).2.1 rfl)
        simp [getCookie, hsplit, findCookieEntry, htrim, hnp, lookupJar, hname]
    | cons q qs =>
      have hwfrest : wfJar (q :: qs) := fun p hp => hwf p (List.mem_cons_of_mem _ hp)
      have ih := getCookie_cookieString name hn (q :: qs) hwfrest
      have hstring : cookieString ((n, v) :: q :: qs)
          = (n ++ '=' :: v) ++ ';' :: (' ' :: cookieString (q :: qs)) := by
        simp [cookieString]
      have hsplit : splitOnSemi (cookieString ((n, v) :: q :: qs))
          = (n ++ '=' :: v) :: splitOnSemi (' ' :: cookieString (q :: qs)) := by
        rw [hstring]
        exact splitOnSemi_append _ hnosemi
      obtain ⟨g, gs, hgs⟩ : ∃ g gs, splitOnSemi (cookieString (q :: qs)) = g :: gs := by
        cases h : splitOnSemi (cookieString (q :: qs)) with
        | nil => exact absurd h (splitOnSemi_ne_nil _)
        | cons g gs => exact ⟨g, gs, rfl⟩
      have hspace : splitOnSemi (' ' :: cookieString (q :: qs)) = (' ' :: g) :: gs := by
        simp [splitOnSemi, hgs]
      by_cases hname : n = name
      · subst hname
        simp [getCookie, hsplit, hspace, findCookieEntry, htrim, isPrefixOf_own_entry,
          own_entry_drop, lookupJar]
      · have hnp := otherName_not_isPrefixOf v name n hname
          (fun h => (hwfn '=' h).2.1 rfl) (fun h => (hn '=' h).2.1 rfl)
        rw [getCookie] at ih ⊢
        rw [hsplit, hspace]
        rw [findCookieEntry, htrim, hnp]
        simp only [Bool.false_eq_true, if_false]
        rw [findCookieEntry_space_head, ← hgs, ih]
        simp [lookupJar, hname]

theorem lookupJar_setCookieJar (name value : List Char) :
    ∀ jar, lookupJar name (setCookieJar jar name value) = some value
  | [] => by simp [setCookieJar, lookupJar]
  | (m, w) :: rest => by
    by_cases h : m = name
    · simp [setCookieJar, h, lookupJar]
    · simp [setCookieJar, h, lookupJar, lookupJar_setCookieJar name value rest]

theorem wfJar_setCookieJar {name value : List Char} (hn : wfName name) (hv : ';' ∉ value) :
    ∀ {jar}, wfJar jar → wfJar (setCookieJar jar name value)
  | [], _ => by
    intro p hp
    simp [setCookieJar] at hp
    subst hp
    exact ⟨hn, hv⟩
  | (m, w) :: rest, hwf => by
    intro p hp
    by_cases h : m = name
    · simp only [setCookieJar, h, if_pos rfl] at hp
      rcases List.mem_cons.mp hp with h1 | h1
      · subst h1; exact ⟨hn, hv⟩
      · exact hwf p (List.mem_cons_of_mem _ h1)
    · simp only [setCookieJar, if_neg h] at hp
      rcases List.mem_cons.mp hp with h1 | h1
      · subst h1; exact hwf (m, w) (List.mem_cons_self _ _)
      · exact wfJar_setCookieJar hn hv
          (fun q hq => hwf q (List.mem_cons_of_mem _ hq)) p h1

/-- C10: writing a cookie with `setCookie` and reading it back with
`getCookie` returns exactly the written value, for well-formed cookie names
(no `;`, `=`, or space — the names the format can represent) and values that
are non-empty with no `;` or `=` and no leading space, whatever well-formed
cookies are already stored; and `getCookie` returns null for a name that was
never set. -/
theorem cookie_roundtrip :
    (∀ (jar : List (List Char × List Char)) (name value : List Char),
      wfJar jar → wfName name →
      value ≠ [] → ';' ∉ value → '=' ∉ value → (∀ c ∈ value.take 1, c ≠ ' ') →
      getCookie (cookieString (setCookieJar jar name value)) name = some value)
    ∧ (∀ (jar : List (List Char × List Char)) (name : List Char),
      wfJar jar → wfName name → lookupJar name jar = none →
      getCookie (cookieString jar) name = none) := by
  constructor
  · intro jar name value hjar hname _ hv _ _
    rw [getCookie_cookieString name hname _ (wfJar_setCookieJar hname hv hjar)]
    exact lookupJar_setCookieJar name value jar
  · intro jar name hjar hname hlook
    rw [getCookie_cookieString name hname jar hjar]
    exact hlook

/-- C10 witness: round trip of `authToken=tok123` past an existing cookie,
and a never-set name reading back as null. -/
theorem cookie_roundtrip_witness :
    getCookie
        (cookieString (setCookieJar [((("currentUser").data), (("alice").data))]
          (("authToken").data) (("tok123").data)))
        (("authToken").data)
      = some (("tok123").data)
    ∧ getCookie (cookieString [((("currentUser").data), (("alice").data))])
        (("authToken").data) = none :=
  ⟨cookie_roundtrip.1 [((("currentUser").data), (("alice").data))]
      (("authToken").data) (("tok123").data)
      (by decide) (by decide) (by decide) (by decide) (by decide) (by decide),
   cookie_roundtrip.2 [((("currentUser").data), (("alice").data))]
      (("authToken").data) (by decide) (by decide) (by decide)⟩

end MathSolver
